import Mathlib

/-!
Verification of the omi_export conversation/memory export script
(`omi_data.py`) against its natural-language specification.

The development shallowly embeds the core of the script:

* the Range Filter `filter_conversations_by_date`,
* the Parallel Retrieval Engine `get_conversations` (priming phase,
  eager submission up to `MAX_WORKERS`, completion processing in an
  arbitrary completion order given by an explicit `schedule`),
* the memory pagination loop `get_memories`,
* the timestamp normalizer `parse_timestamp` with explicit Python
  exception propagation (`Except PyExc`),
* the incremental grouping and sink `process_batch`,
* the `__main__` query-window computation (local calendar dates in a
  fixed-offset zone converted to UTC epoch instants).

Timestamps are modelled as rational UTC epoch seconds (`Rat`): Python
`datetime` instants are totally ordered with sub-second resolution, and
all comparisons performed by the script are order comparisons.
Concurrency is modelled by an explicit `schedule` choosing which
in-flight request completes next, mirroring `as_completed`.
-/

namespace OmiExport

/-- A conversation record as seen by the Range Filter and the engine.
`ts` is the value of `parse_timestamp_from_conversation(conv)` (a UTC
instant, or `none` when no candidate timestamp field parses); `id` is
an opaque payload distinguishing records. -/
structure Conv where
  ts : Option Rat
  id : Nat
deriving DecidableEq

/-! ## Range Filter: `filter_conversations_by_date` (omi_data.py lines 318-353) -/

/-- The `within_range` computation of the filter loop: the source sets
`within_range = False` when `start_date_utc and conv_date_utc < start_date_utc`
or when `end_date_utc and conv_date_utc > end_date_utc`. -/
def withinB (start_date_utc end_date_utc : Option Rat) (ts : Rat) : Bool :=
  (match start_date_utc with
   | none => true
   | some b => !(decide (ts < b))) &&
  (match end_date_utc with
   | none => true
   | some b => !(decide (b < ts)))

/-- Loop body of `filter_conversations_by_date`: walks the page in
order, keeping unparseable records unconditionally, keeping parseable
records that violate neither bound, and clearing the
`all_within_range` flag whenever a parseable record violates a bound.
Returns (`filtered`, `all_within_range`). -/
def filterLoop (start_date_utc end_date_utc : Option Rat) : List Conv → List Conv × Bool
  | [] => ([], true)
  | c :: rest =>
    let r := filterLoop start_date_utc end_date_utc rest
    match c.ts with
    | none => (c :: r.1, r.2)
    | some ts =>
      (if withinB start_date_utc end_date_utc ts then c :: r.1 else r.1,
       withinB start_date_utc end_date_utc ts && r.2)

/-- Embedding of `filter_conversations_by_date(conversations,
start_date_utc, end_date_utc)`: when both bounds are absent the page is
returned unchanged with the continue flag set; otherwise the loop runs. -/
def filter_conversations_by_date (conversations : List Conv)
    (start_date_utc end_date_utc : Option Rat) : List Conv × Bool :=
  match start_date_utc, end_date_utc with
  | none, none => (conversations, true)
  | _, _ => filterLoop start_date_utc end_date_utc conversations

/-- Specification-side keep predicate (from the spec's words): an
unparseable record is kept; a parseable record is kept iff
`start ≤ ts` (when start is set) and `ts ≤ end` (when end is set). -/
def keepB (start_date_utc end_date_utc : Option Rat) (c : Conv) : Bool :=
  match c.ts with
  | none => true
  | some ts =>
    (match start_date_utc with
     | none => true
     | some b => decide (b ≤ ts)) &&
    (match end_date_utc with
     | none => true
     | some b => decide (ts ≤ b))

theorem keepB_some (s e : Option Rat) (c : Conv) (ts : Rat) (h : c.ts = some ts) :
    keepB s e c = withinB s e ts := by
  cases s <;> cases e <;> simp [keepB, withinB, h, ← decide_not, not_lt]

theorem keepB_none (s e : Option Rat) (c : Conv) (h : c.ts = none) :
    keepB s e c = true := by
  simp [keepB, h]

theorem withinB_iff (s e : Option Rat) (ts : Rat) :
    withinB s e ts = true ↔
      ((∀ b, s = some b → b ≤ ts) ∧ (∀ b, e = some b → ts ≤ b)) := by
  cases s <;> cases e <;> simp [withinB, ← decide_not, not_lt]

theorem filterLoop_eq (s e : Option Rat) (l : List Conv) :
    filterLoop s e l = (l.filter (keepB s e), l.all (keepB s e)) := by
  induction l with
  | nil => rfl
  | cons c rest ih =>
    cases hts : c.ts with
    | none =>
      simp [filterLoop, hts, ih, keepB_none s e c hts, List.filter_cons, List.all_cons]
    | some ts =>
      simp only [filterLoop, hts, ih, List.filter_cons, List.all_cons,
        keepB_some s e c ts hts]

theorem filter_eq (s e : Option Rat) (l : List Conv) :
    filter_conversations_by_date l s e = (l.filter (keepB s e), l.all (keepB s e)) := by
  match s, e with
  | none, none =>
    have h1 : l.filter (keepB none none) = l :=
      List.filter_eq_self.mpr (fun c _ => by cases hc : c.ts <;> simp [keepB, hc])
    have h2 : l.all (keepB none none) = true :=
      List.all_eq_true.mpr (fun c _ => by cases hc : c.ts <;> simp [keepB, hc])
    simp [filter_conversations_by_date, h1, h2]
  | none, some b => exact filterLoop_eq _ _ l
  | some a, none => exact filterLoop_eq _ _ l
  | some a, some b => exact filterLoop_eq _ _ l

theorem filter_length_le (s e : Option Rat) (l : List Conv) :
    (filter_conversations_by_date l s e).1.length ≤ l.length := by
  rw [filter_eq]
  exact List.length_filter_le _ l

/-- When the continue flag comes back true, nothing was filtered out:
the kept list is the whole page. -/
theorem filter_all_kept (s e : Option Rat) (l : List Conv)
    (h : (filter_conversations_by_date l s e).2 = true) :
    (filter_conversations_by_date l s e).1 = l := by
  rw [filter_eq] at h ⊢
  exact List.filter_eq_self.mpr (fun c hc => List.all_eq_true.mp h c hc)

/-- C5: for every page and window, the Range Filter keeps a record with
an unparseable timestamp unconditionally; keeps a record with parseable
timestamp ts iff start ≤ ts (when start is set) and ts ≤ end (when end
is set); returns `fullyWithinWindow` (the continue flag) = true iff
every parseable record in the page satisfied both bounds, with
unparseable records never affecting the flag; and when both bounds are
absent it keeps all records with the flag true. -/
theorem c5_range_filter (l : List Conv) (s e : Option Rat) :
    (filter_conversations_by_date l s e).1 = l.filter (keepB s e)
    ∧ (∀ c : Conv, c.ts = none → keepB s e c = true)
    ∧ (∀ (c : Conv) (ts : Rat), c.ts = some ts →
        (keepB s e c = true ↔
          ((∀ b, s = some b → b ≤ ts) ∧ (∀ b, e = some b → ts ≤ b))))
    ∧ ((filter_conversations_by_date l s e).2 = true ↔
        ∀ c ∈ l, ∀ ts : Rat, c.ts = some ts →
          ((∀ b, s = some b → b ≤ ts) ∧ (∀ b, e = some b → ts ≤ b)))
    ∧ (s = none → e = none →
        (filter_conversations_by_date l s e).1 = l ∧
        (filter_conversations_by_date l s e).2 = true) := by
  refine ⟨by rw [filter_eq], fun c hc => keepB_none s e c hc, ?_, ?_, ?_⟩
  · intro c ts hc
    rw [keepB_some s e c ts hc]
    exact withinB_iff s e ts
  · rw [filter_eq]
    simp only [List.all_eq_true]
    constructor
    · intro h c hmem ts hts
      have hk := h c hmem
      rw [keepB_some s e c ts hts] at hk
      exact (withinB_iff s e ts).mp hk
    · intro h c hmem
      cases hts : c.ts with
      | none => exact keepB_none s e c hts
      | some ts =>
        rw [keepB_some s e c ts hts]
        exact (withinB_iff s e ts).mpr (h c hmem ts hts)
  · intro hs he
    subst hs; subst he
    exact ⟨rfl, rfl⟩

/-- Witness for C5, instantiating the theorem at a concrete page
containing one parseable and one unparseable record. -/
theorem c5_range_filter_witness :
    (filter_conversations_by_date [⟨some 3, 0⟩, ⟨none, 1⟩] (some 5) (some 10)).1
      = ([⟨some 3, 0⟩, ⟨none, 1⟩] : List Conv).filter (keepB (some 5) (some 10))
    ∧ keepB (some 5) (some 10) ⟨none, 1⟩ = true :=
  ⟨(c5_range_filter [⟨some 3, 0⟩, ⟨none, 1⟩] (some 5) (some 10)).1,
   (c5_range_filter [⟨some 3, 0⟩, ⟨none, 1⟩] (some 5) (some 10)).2.1 ⟨none, 1⟩ rfl⟩

/-! ## Parallel Retrieval Engine: `get_conversations` (omi_data.py lines 392-618)

Concurrency model: the thread pool is replaced by an explicit list of
in-flight offsets (the `futures` dict; `active_requests` always equals
its size in the source) together with a `schedule` that decides, at
each `as_completed` iteration, which member of the snapshot completes
next.  Fetch outcomes are given by an oracle `fetchFn : Nat →
FetchOutcome`; a retried offset returns the same outcome (sufficient
for every claim below, none of which exercises a retry whose outcome
changes).  The outer `while has_more_data` loop is given fuel, a
modelling artifact for runs the source would not terminate on. -/

/-- Result of one `fetch_page` call, as classified by the source:
HTTP 429 → rate limited, any other request failure → failed,
otherwise the page's record list. -/
inductive FetchOutcome where
  | rateLimited
  | failed
  | page (data : List Conv)
deriving DecidableEq

/-- The engine's configuration: `PAGE_LIMIT`, `MAX_WORKERS` and the
parsed UTC window bounds (`start_date_utc`, `end_date_utc`). -/
structure EngCfg where
  pageLimit : Nat
  maxWorkers : Nat
  startDate : Option Rat
  endDate : Option Rat
deriving DecidableEq

/-- The engine's mutable state: accumulated output `allData`, batches
delivered to the callback in delivery order, next offset to submit,
the `has_more_data` flag, offsets of in-flight futures, and the log of
every `fetch_page` submission in submission order. -/
structure EngSt where
  allData : List Conv
  batches : List (List Conv)
  offset : Nat
  hasMoreData : Bool
  inFlight : List Nat
  fetchLog : List Nat
deriving DecidableEq

/-- Result of handling one completed future inside the
`for future in as_completed(futures)` loop: either fall through to the
next completed future (`cont`, covering the source's `continue` and
normal fall-through) or `break` out of the loop (`stop`). -/
inductive StepRes where
  | cont (st : EngSt)
  | stop (st : EngSt)
deriving DecidableEq

def StepRes.state : StepRes → EngSt
  | .cont st => st
  | .stop st => st

/-- The inner submission loop `while active_requests < MAX_WORKERS and
has_more_data`: submits one page per iteration, sliding the offset by
`PAGE_LIMIT`; since `has_more_data` cannot change inside it, it submits
exactly `MAX_WORKERS - active_requests` pages (closed form). -/
def submitPhase (cfg : EngCfg) (st : EngSt) : EngSt :=
  if st.hasMoreData then
    let k := cfg.maxWorkers - st.inFlight.length
    let newOffsets := (List.range k).map (fun i => st.offset + i * cfg.pageLimit)
    { st with
      inFlight := st.inFlight ++ newOffsets,
      fetchLog := st.fetchLog ++ newOffsets,
      offset := st.offset + k * cfg.pageLimit }
  else st

/-- Delivery and end-of-data check shared by the fall-through paths of
the completion handler (source lines 592-606): extend `all_data` and
invoke the callback when the filtered batch is non-empty, then clear
`has_more_data` and break when the page's raw count fell short of
`PAGE_LIMIT`. -/
def deliverAndCheck (cfg : EngCfg) (originalCount : Nat) (filtered : List Conv)
    (st : EngSt) : StepRes :=
  let st1 :=
    if filtered = [] then st
    else { st with
           allData := st.allData ++ filtered,
           batches := st.batches ++ [filtered] }
  if originalCount < cfg.pageLimit then .stop { st1 with hasMoreData := false }
  else .cont st1

/-- The post-filter branch of the completion handler (source lines
547-606), taken as a function of the raw count and the filter's two
outputs: a boundary-crossing page clears `has_more_data` and is still
delivered when it kept anything; a full page with nothing kept but the
flag still true is treated as a gap and the loop just continues. -/
def handleFiltered (cfg : EngCfg) (originalCount : Nat) (filtered : List Conv)
    (shouldContinue : Bool) (st : EngSt) : StepRes :=
  if shouldContinue = false then
    let st1 := { st with hasMoreData := false }
    if filtered = [] then .stop st1
    else deliverAndCheck cfg originalCount filtered st1
  else
    if filtered = [] ∧ originalCount = cfg.pageLimit then .cont st
    else deliverAndCheck cfg originalCount filtered st

/-- Processing of one completed future at offset `o` (already popped
from `futures`): rate-limited pages are resubmitted at the same offset,
failed pages are dropped with `continue`, an empty page clears
`has_more_data` and breaks, and a non-empty page goes through the Range
Filter and `handleFiltered`. -/
def processOne (cfg : EngCfg) (fetchFn : Nat → FetchOutcome) (o : Nat)
    (st : EngSt) : StepRes :=
  match fetchFn o with
  | .rateLimited =>
    .cont { st with
            inFlight := st.inFlight ++ [o],
            fetchLog := st.fetchLog ++ [o] }
  | .failed => .cont st
  | .page data =>
    if data = [] then .stop { st with hasMoreData := false }
    else
      let fr := filter_conversations_by_date data cfg.startDate cfg.endDate
      handleFiltered cfg data.length fr.1 fr.2 st

/-- The `for future in as_completed(futures)` loop over one snapshot of
the futures dict.  The schedule picks which snapshot member completes
next; each processed future is removed from the snapshot and from
`inFlight`; a `break` leaves the rest of the snapshot unprocessed (and
still in flight).  Futures resubmitted after a rate limit join
`inFlight` but not the current snapshot, exactly as with
`as_completed`. -/
def processSnapshot (cfg : EngCfg) (fetchFn : Nat → FetchOutcome) :
    Nat → List Nat → List Nat → EngSt → EngSt × List Nat
  | 0, sched, _, st => (st, sched)
  | Nat.succ fuel, sched, snapshot, st =>
    if snapshot.length = 0 then (st, sched)
    else
      let i := (sched.headD 0) % snapshot.length
      let o := snapshot.getD i 0
      let st1 := { st with inFlight := st.inFlight.erase o }
      match processOne cfg fetchFn o st1 with
      | .stop st2 => (st2, sched.tail)
      | .cont st2 =>
        processSnapshot cfg fetchFn fuel sched.tail (snapshot.eraseIdx i) st2

/-- The outer `while has_more_data` loop: submit up to `MAX_WORKERS`
in-flight requests, then process the completions of the current
snapshot.  The source's trailing `if not futures and not has_more_data:
break` is subsumed by the `while` condition itself, which exits as soon
as `has_more_data` is false — even when futures remain in flight. -/
def engineLoop (cfg : EngCfg) (fetchFn : Nat → FetchOutcome) :
    Nat → List Nat → EngSt → EngSt
  | 0, _, st => st
  | Nat.succ fuel, sched, st =>
    match st.hasMoreData with
    | false => st
    | true =>
      let st1 := submitPhase cfg st
      let r := processSnapshot cfg fetchFn st1.inFlight.length sched st1.inFlight st1
      engineLoop cfg fetchFn fuel r.2 r.1

/-- The initial retrieval state. -/
def primeState : EngSt :=
  { allData := [], batches := [], offset := 0, hasMoreData := true,
    inFlight := [], fetchLog := [] }

/-- The part of `get_conversations` following a successful primed fetch
of offset 0 (source lines 450-498): an empty first page returns at
once; otherwise the first page is filtered (the flag returned alongside
is computed but never consulted, as in the source), delivered, and when
the filtered count falls short of `PAGE_LIMIT` retrieval finishes
without entering the parallel phase. -/
def primed (cfg : EngCfg) (fetchFn : Nat → FetchOutcome) (fuel : Nat)
    (sched : List Nat) (st0 : EngSt) (data : List Conv) : EngSt :=
  if data = [] then { st0 with hasMoreData := false }
  else
    let fr := filter_conversations_by_date data cfg.startDate cfg.endDate
    let st1 := { st0 with
                 allData := fr.1,
                 batches := if fr.1 = [] then [] else [fr.1] }
    if fr.1.length < cfg.pageLimit then { st1 with hasMoreData := false }
    else
      engineLoop cfg fetchFn fuel sched
        { st1 with offset := cfg.pageLimit, hasMoreData := true }

/-- Embedding of `get_conversations`: prime offset 0 synchronously
(with a single retry on a rate limit, which under the deterministic
fetch oracle hits the rate limit again and aborts, mirroring the
source's abort on a second error), then run the parallel phase.  The
source returns `all_data`; the embedding returns the whole final state
so that theorems can also observe the submission log and the futures
left in flight. -/
def get_conversations (cfg : EngCfg) (fetchFn : Nat → FetchOutcome)
    (fuel : Nat) (sched : List Nat) : EngSt :=
  let st0 := { primeState with fetchLog := [0] }
  match fetchFn 0 with
  | .rateLimited =>
    { st0 with fetchLog := st0.fetchLog ++ [0], hasMoreData := false }
  | .failed => { st0 with hasMoreData := false }
  | .page data => primed cfg fetchFn fuel sched st0 data

/-! ### Supporting lemmas: the submission log only ever grows -/

theorem deliverAndCheck_log (cfg : EngCfg) (n : Nat) (fl : List Conv) (st : EngSt) :
    ((deliverAndCheck cfg n fl st).state).fetchLog = st.fetchLog := by
  by_cases hf : fl = [] <;> by_cases hn : n < cfg.pageLimit <;>
    simp [deliverAndCheck, StepRes.state, hf, hn]

theorem handleFiltered_log (cfg : EngCfg) (n : Nat) (fl : List Conv) (b : Bool)
    (st : EngSt) :
    ((handleFiltered cfg n fl b st).state).fetchLog = st.fetchLog := by
  by_cases hb : b = false
  · by_cases hf : fl = []
    · simp [handleFiltered, hb, hf, StepRes.state]
    · simpa [handleFiltered, hb, hf] using
        deliverAndCheck_log cfg n fl { st with hasMoreData := false }
  · by_cases hgap : fl = [] ∧ n = cfg.pageLimit
    · simp [handleFiltered, hb, hgap, StepRes.state]
    · simpa [handleFiltered, hb, hgap] using deliverAndCheck_log cfg n fl st

theorem processOne_log (cfg : EngCfg) (f : Nat → FetchOutcome) (o : Nat) (st : EngSt) :
    ∃ t, ((processOne cfg f o st).state).fetchLog = st.fetchLog ++ t := by
  rcases hfo : f o with _ | _ | data
  · exact ⟨[o], by simp [processOne, hfo, StepRes.state]⟩
  · exact ⟨[], by simp [processOne, hfo, StepRes.state]⟩
  · by_cases hd : data = []
    · exact ⟨[], by simp [processOne, hfo, hd, StepRes.state]⟩
    · refine ⟨[], ?_⟩
      rw [List.append_nil]
      simp only [processOne, hfo, if_neg hd]
      exact handleFiltered_log cfg data.length _ _ st

theorem processSnapshot_log (cfg : EngCfg) (f : Nat → FetchOutcome) :
    ∀ (fuel : Nat) (sched snapshot : List Nat) (st : EngSt),
      ∃ t, (processSnapshot cfg f fuel sched snapshot st).1.fetchLog
            = st.fetchLog ++ t := by
  intro fuel
  induction fuel with
  | zero => exact fun sched snapshot st => ⟨[], by simp [processSnapshot]⟩
  | succ fuel ih =>
    intro sched snapshot st
    by_cases hsnap : snapshot.length = 0
    · exact ⟨[], by simp [processSnapshot, hsnap]⟩
    · have hst1 : ({ st with
          inFlight := st.inFlight.erase (snapshot.getD ((sched.headD 0) % snapshot.length) 0) }
            : EngSt).fetchLog = st.fetchLog := rfl
      obtain ⟨t1, ht1⟩ := processOne_log cfg f
        (snapshot.getD ((sched.headD 0) % snapshot.length) 0)
        { st with
            inFlight := st.inFlight.erase (snapshot.getD ((sched.headD 0) % snapshot.length) 0) }
      rcases hpo : processOne cfg f (snapshot.getD ((sched.headD 0) % snapshot.length) 0)
          { st with
              inFlight := st.inFlight.erase (snapshot.getD ((sched.headD 0) % snapshot.length) 0) }
        with st2 | st2
      · rw [hpo] at ht1
        obtain ⟨t2, ht2⟩ := ih sched.tail
          (snapshot.eraseIdx ((sched.headD 0) % snapshot.length)) st2
        refine ⟨t1 ++ t2, ?_⟩
        simp only [processSnapshot]
        rw [if_neg hsnap]
        simp only [hpo]
        rw [ht2]
        have h2 : st2.fetchLog = st.fetchLog ++ t1 := by
          simpa [StepRes.state, hst1] using ht1
        rw [h2, List.append_assoc]
      · rw [hpo] at ht1
        refine ⟨t1, ?_⟩
        simp only [processSnapshot]
        rw [if_neg hsnap]
        simp only [hpo]
        simpa [StepRes.state, hst1] using ht1

theorem submitPhase_log (cfg : EngCfg) (st : EngSt) :
    ∃ t, (submitPhase cfg st).fetchLog = st.fetchLog ++ t := by
  by_cases hm : st.hasMoreData <;> simp [submitPhase, hm]

theorem engineLoop_log (cfg : EngCfg) (f : Nat → FetchOutcome) :
    ∀ (fuel : Nat) (sched : List Nat) (st : EngSt),
      ∃ t, (engineLoop cfg f fuel sched st).fetchLog = st.fetchLog ++ t := by
  intro fuel
  induction fuel with
  | zero => exact fun sched st => ⟨[], by simp [engineLoop]⟩
  | succ fuel ih =>
    intro sched st
    rcases hm : st.hasMoreData with _ | _
    · exact ⟨[], by simp [engineLoop, hm]⟩
    · obtain ⟨t1, ht1⟩ := submitPhase_log cfg st
      obtain ⟨t2, ht2⟩ := processSnapshot_log cfg f
        (submitPhase cfg st).inFlight.length sched (submitPhase cfg st).inFlight
        (submitPhase cfg st)
      obtain ⟨t3, ht3⟩ := ih
        (processSnapshot cfg f (submitPhase cfg st).inFlight.length sched
          (submitPhase cfg st).inFlight (submitPhase cfg st)).2
        (processSnapshot cfg f (submitPhase cfg st).inFlight.length sched
          (submitPhase cfg st).inFlight (submitPhase cfg st)).1
      refine ⟨t1 ++ (t2 ++ t3), ?_⟩
      simp only [engineLoop, hm]
      rw [ht3, ht2, ht1]
      simp [List.append_assoc]

/-- With no request in flight, at least one worker, and the more-data
flag set, the submission phase submits the current offset first. -/
theorem submitPhase_mem (cfg : EngCfg) (st : EngSt)
    (hm : st.hasMoreData = true) (hi : st.inFlight = [])
    (hW : 1 ≤ cfg.maxWorkers) :
    st.offset ∈ (submitPhase cfg st).fetchLog := by
  simp only [submitPhase, hm, if_true]
  refine List.mem_append_right _ ?_
  have h0 : (0 : Nat) ∈ List.range (cfg.maxWorkers - st.inFlight.length) := by
    rw [hi]
    simpa using List.mem_range.mpr (by omega)
  have := List.mem_map_of_mem (fun i => st.offset + i * cfg.pageLimit) h0
  simpa using this

/-- Entering the outer loop with the more-data flag set, no futures in
flight and at least one worker, the engine submits the current offset. -/
theorem engineLoop_mem_start (cfg : EngCfg) (f : Nat → FetchOutcome)
    (fuel : Nat) (sched : List Nat) (st : EngSt)
    (hm : st.hasMoreData = true) (hi : st.inFlight = [])
    (hW : 1 ≤ cfg.maxWorkers) :
    st.offset ∈ (engineLoop cfg f (fuel + 1) sched st).fetchLog := by
  simp only [engineLoop, hm]
  obtain ⟨t2, ht2⟩ := processSnapshot_log cfg f
    (submitPhase cfg st).inFlight.length sched (submitPhase cfg st).inFlight
    (submitPhase cfg st)
  obtain ⟨t3, ht3⟩ := engineLoop_log cfg f fuel
    (processSnapshot cfg f (submitPhase cfg st).inFlight.length sched
      (submitPhase cfg st).inFlight (submitPhase cfg st)).2
    (processSnapshot cfg f (submitPhase cfg st).inFlight.length sched
      (submitPhase cfg st).inFlight (submitPhase cfg st)).1
  rw [ht3, ht2]
  exact List.mem_append_left _ (List.mem_append_left _ (submitPhase_mem cfg st hm hi hW))

/-! ### Concrete scenario fixtures -/

/-- Two plain records with parseable timestamps, used in window-free runs. -/
def rec0 : Conv := ⟨some 0, 0⟩

def rec1 : Conv := ⟨some 1, 1⟩

/-- C2 fixture: page size 1, two workers, no window; offset 0 holds
`rec0`, offset 1 holds `rec1`, offset 2 and beyond are empty. -/
def cfgC2 : EngCfg := ⟨1, 2, none, none⟩

def fetchC2 : Nat → FetchOutcome := fun o =>
  if o = 0 then .page [rec0] else if o = 1 then .page [rec1] else .page []

/-- C7 fixture: page size 1, two workers, no window; offset 1 fails with
a non-throttling error, its neighbours succeed. -/
def cfgC7 : EngCfg := ⟨1, 2, none, none⟩

def fetchC7 : Nat → FetchOutcome := fun o =>
  if o = 0 then .page [rec0] else if o = 1 then .failed
  else if o = 2 then .page [rec1] else .page []

/-- The spec's C4 scenario: window 2025-01-01T00:00:00Z to
2025-01-02T00:00:00Z as UTC epoch seconds. -/
def c4start : Rat := 1735689600

def c4end : Rat := 1735776000

/-- Page 0 of the C4 scenario: 2025-01-01T01:00Z and T05:00Z. -/
def c4rec01 : Conv := ⟨some 1735693200, 10⟩

def c4rec02 : Conv := ⟨some 1735707600, 11⟩

/-- Page 1 of the C4 scenario: 2025-01-02T01:00Z and T02:00Z, both past
the end bound. -/
def c4rec11 : Conv := ⟨some 1735779600, 20⟩

def c4rec12 : Conv := ⟨some 1735783200, 21⟩

def fetchC4 : Nat → FetchOutcome := fun o =>
  if o = 0 then .page [c4rec01, c4rec02]
  else if o = 2 then .page [c4rec11, c4rec12] else .page []

/-- The C4 scenario with the source's `MAX_WORKERS = 5`. -/
def cfgC4w5 : EngCfg := ⟨2, 5, some c4start, some c4end⟩

/-- The C4 scenario restricted to a single worker. -/
def cfgC4w1 : EngCfg := ⟨2, 1, some c4start, some c4end⟩

/-- A concrete engine state used to instantiate witnesses. -/
def stW : EngSt :=
  { allData := [rec0], batches := [[rec0]], offset := 3, hasMoreData := true,
    inFlight := [2], fetchLog := [0, 1, 2] }

/-! ### Claims about the Parallel Retrieval Engine -/

/-- C3 fixture: page size 2, window [100, 200]; the primed page is full
(raw count 2) but its second record lies past the end bound. -/
def cfgC3x : EngCfg := ⟨2, 5, some 100, some 200⟩

def c3xIn : Conv := ⟨some 150, 30⟩

def c3xOut : Conv := ⟨some 250, 31⟩

def fetchC3x : Nat → FetchOutcome := fun o =>
  if o = 0 then .page [c3xIn, c3xOut] else .page []

/-- C3 counterexample: the priming decision is NOT made on the raw
record count before window filtering.  The primed page here holds
exactly `pageSize = 2` records — under a decision on the raw count a
full page means more data may exist — yet because one record is past
the end bound the filter keeps only one, `len(first_page_data) = 1 < 2`
(line 491 tests the post-filter count), and retrieval completes
immediately after priming: the submission log stays at the single
primed fetch and no parallel-phase submission occurs. -/
theorem c3_priming_decision_counterexample :
    fetchC3x 0 = .page [c3xIn, c3xOut]
    ∧ ([c3xIn, c3xOut] : List Conv).length = cfgC3x.pageLimit
    ∧ (filter_conversations_by_date [c3xIn, c3xOut]
        cfgC3x.startDate cfgC3x.endDate).1 = [c3xIn]
    ∧ (get_conversations cfgC3x fetchC3x 20 []).fetchLog = [0]
    ∧ (get_conversations cfgC3x fetchC3x 20 []).allData = [c3xIn]
    ∧ (get_conversations cfgC3x fetchC3x 20 []).hasMoreData = false := by
  refine ⟨?_, ?_, ?_, ?_, ?_, ?_⟩ <;> decide

/-- C3 amended: the priming decision is made on
`len(first_page_data)`, the record count AFTER window filtering (line
491 over the filtered page of line 456): retrieval completes
immediately after priming — the submission log stays at the single
primed fetch — exactly when the kept record count is less than the page
size; since the filter only removes records, a raw count below the page
size still completes after priming, and when the raw count equals the
page size and the termination signal has not fired (which forces the
filter to keep the whole page) the engine proceeds to the parallel
phase and submits the next page at offset `PAGE_LIMIT`. -/
theorem c3_priming_decision (cfg : EngCfg) (fetchFn : Nat → FetchOutcome)
    (fuel : Nat) (sched : List Nat) (data : List Conv)
    (hfetch : fetchFn 0 = .page data)
    (hW : 1 ≤ cfg.maxWorkers) (hF : 1 ≤ fuel) (hP : 1 ≤ cfg.pageLimit) :
    ((filter_conversations_by_date data cfg.startDate cfg.endDate).1.length
        < cfg.pageLimit →
      (get_conversations cfg fetchFn fuel sched).fetchLog = [0]
      ∧ (get_conversations cfg fetchFn fuel sched).allData
          = (filter_conversations_by_date data cfg.startDate cfg.endDate).1
      ∧ (get_conversations cfg fetchFn fuel sched).hasMoreData = false)
    ∧ (data.length < cfg.pageLimit →
        (filter_conversations_by_date data cfg.startDate cfg.endDate).1.length
          < cfg.pageLimit)
    ∧ ((data.length = cfg.pageLimit
        ∧ (filter_conversations_by_date data cfg.startDate cfg.endDate).2 = true) →
       cfg.pageLimit ∈ (get_conversations cfg fetchFn fuel sched).fetchLog) := by
  refine ⟨?_, ?_, ?_⟩
  · intro hlt
    simp only [get_conversations, hfetch]
    by_cases hd : data = []
    · subst hd
      refine ⟨rfl, ?_, rfl⟩
      rw [filter_eq]
      rfl
    · simp [primed, if_neg hd, if_pos hlt]
  · intro hlen
    exact lt_of_le_of_lt (filter_length_le _ _ _) hlen
  · rintro ⟨hlen, hflag⟩
    have hfd : (filter_conversations_by_date data cfg.startDate cfg.endDate).1 = data :=
      filter_all_kept _ _ _ hflag
    simp only [get_conversations, hfetch]
    have hd : data ≠ [] := by
      intro h
      rw [h] at hlen
      simp at hlen
      omega
    have hnlt : ¬ ((filter_conversations_by_date data cfg.startDate cfg.endDate).1.length
        < cfg.pageLimit) := by
      rw [hfd, hlen]
      exact lt_irrefl _
    simp only [primed, if_neg hd, if_neg hnlt]
    obtain ⟨k, rfl⟩ : ∃ k, fuel = k + 1 := ⟨fuel - 1, by omega⟩
    exact engineLoop_mem_start cfg fetchFn k sched _ rfl rfl hW

/-- Witness for C3: a primed page whose kept count 1 falls short of
page size 2 finishes after priming (and a raw count of 1 forces that
kept count); a full primed page of two in-window records proceeds to
offset 2. -/
theorem c3_priming_decision_witness :
    ((get_conversations ⟨2, 1, none, none⟩ (fun _ => .page [rec0]) 1 []).fetchLog = [0]
      ∧ (get_conversations ⟨2, 1, none, none⟩ (fun _ => .page [rec0]) 1 []).allData
          = (filter_conversations_by_date [rec0] none none).1
      ∧ (get_conversations ⟨2, 1, none, none⟩ (fun _ => .page [rec0]) 1 []).hasMoreData = false)
    ∧ (filter_conversations_by_date [rec0] none none).1.length < 2
    ∧ 2 ∈ (get_conversations ⟨2, 1, none, none⟩ (fun _ => .page [rec0, rec1]) 1 []).fetchLog :=
  ⟨(c3_priming_decision ⟨2, 1, none, none⟩ (fun _ => .page [rec0]) 1 [] [rec0]
      rfl (by decide) (by decide) (by decide)).1 (by decide),
   (c3_priming_decision ⟨2, 1, none, none⟩ (fun _ => .page [rec0]) 1 [] [rec0]
      rfl (by decide) (by decide) (by decide)).2.1 (by decide),
   (c3_priming_decision ⟨2, 1, none, none⟩ (fun _ => .page [rec0, rec1]) 1 [] [rec0, rec1]
      rfl (by decide) (by decide) (by decide)).2.2 ⟨by decide, by decide⟩⟩

/-- C2 (code bug): when the empty page at offset 2 completes while the
fetch at offset 1 is still in flight, the source's outer loop exits as
soon as `has_more_data` is cleared: the completed in-flight page at
offset 1 is never processed, its kept record `rec1` is missing from the
returned sequence, and the run ends with a future still in flight.
Processing the in-flight page first (the drain order the claim
requires) does deliver `rec1`, so the loss is caused purely by the
early exit. -/
theorem c2_empty_page_drops_in_flight :
    (get_conversations cfgC2 fetchC2 20 [1]).allData = [rec0]
    ∧ (get_conversations cfgC2 fetchC2 20 [1]).inFlight = [1]
    ∧ fetchC2 1 = .page [rec1]
    ∧ (filter_conversations_by_date [rec1] none none).1 = [rec1]
    ∧ (get_conversations cfgC2 fetchC2 20 [0]).allData = [rec0, rec1] := by
  refine ⟨?_, ?_, ?_, ?_, ?_⟩ <;> decide

/-- C4 counterexample: in the spec's scenario run with the source's
`MAX_WORKERS = 5`, the engine still returns exactly the two page-0
records, but it eagerly submits five parallel fetches on entering the
parallel phase, for six fetch calls in total (offsets 0 through 10),
refuting "exactly 2 fetch calls are issued (offsets 0 and 2), with no
fetches issued beyond offset 2". -/
theorem c4_scenario_counterexample :
    (get_conversations cfgC4w5 fetchC4 20 [0]).allData = [c4rec01, c4rec02]
    ∧ (get_conversations cfgC4w5 fetchC4 20 [0]).fetchLog = [0, 2, 4, 6, 8, 10]
    ∧ (get_conversations cfgC4w5 fetchC4 20 [0]).fetchLog.length ≠ 2 := by
  refine ⟨?_, ?_, ?_⟩ <;> decide

/-- C4 amended: the scenario as stated holds with a single worker:
the engine returns exactly the two page-0 records, issues exactly the
two fetch calls at offsets 0 and 2, and the continue flag
(`fullyWithinWindow`) computed for page 1 is false. -/
theorem c4_scenario_single_worker :
    (get_conversations cfgC4w1 fetchC4 20 [0]).allData = [c4rec01, c4rec02]
    ∧ (get_conversations cfgC4w1 fetchC4 20 [0]).fetchLog = [0, 2]
    ∧ (filter_conversations_by_date [c4rec11, c4rec12]
        (some c4start) (some c4end)).2 = false := by
  refine ⟨?_, ?_, ?_⟩ <;> decide

/-- C6: a completed page of exactly `PAGE_LIMIT` records whose filter
result kept nothing while `fullyWithinWindow` stayed true is treated as
a gap: the completion handler just continues, leaving the state — in
particular the `has_more_data` flag — untouched, so the engine keeps
fetching subsequent offsets.  Stated on the post-filter branch
`handleFiltered` (which `processOne` applies to the Range Filter's
output), since with the actual filter a kept-nothing page can only
arise with a false flag — the combination the claim describes is the
test-double simulation the spec itself prescribes. -/
theorem c6_full_page_gap_continues (cfg : EngCfg) (st : EngSt)
    (originalCount : Nat) (filtered : List Conv) (shouldContinue : Bool)
    (h1 : originalCount = cfg.pageLimit) (h2 : filtered = [])
    (h3 : shouldContinue = true) :
    handleFiltered cfg originalCount filtered shouldContinue st = .cont st := by
  subst h1; subst h2; subst h3
  simp [handleFiltered]

/-- Witness for C6 at a concrete full page of 2 records. -/
theorem c6_full_page_gap_continues_witness :
    handleFiltered ⟨2, 5, none, none⟩ 2 [] true stW = .cont stW :=
  c6_full_page_gap_continues ⟨2, 5, none, none⟩ stW 2 [] true rfl rfl rfl

/-- C7: a page fetch that fails with a non-throttling error is fully
contained: `fetch_page` has already converted the exception into an
error value, and the completion handler drops the page with `continue`,
leaving the state untouched — no exception path exists, the other
in-flight and subsequent pages are still processed, and the run returns
normally.  The second conjunct exhibits a full run in which the failed
page at offset 1 only reduces the yield: the records of the successful
pages at offsets 0 and 2 are all returned. -/
theorem c7_failed_page_contained (cfg : EngCfg) (fetchFn : Nat → FetchOutcome)
    (o : Nat) (st : EngSt) (h : fetchFn o = .failed) :
    processOne cfg fetchFn o st = .cont st
    ∧ (get_conversations cfgC7 fetchC7 20 [0, 0, 0]).allData = [rec0, rec1] := by
  constructor
  · simp [processOne, h]
  · decide

/-- Witness for C7: the failed fetch at offset 1 of the C7 fixture is
dropped with `continue` and an unchanged state. -/
theorem c7_failed_page_contained_witness :
    processOne cfgC7 fetchC7 1 stW = .cont stW :=
  (c7_failed_page_contained cfgC7 fetchC7 1 stW (by decide)).1

/-! ## Memory retrieval: `get_memories` (omi_data.py lines 620-679)

The loop body issues one request per iteration at `current_offset`;
HTTP 429 sleeps and retries the same offset, a request failure breaks
out (returning what was accumulated), an empty page breaks out, and a
non-empty page is appended with `current_offset += len(data)` — the
actual count returned, not the requested limit, which the loop never
consults.  The `while True` loop is given fuel; the oracle takes the
requested limit and the offset, mirroring the request parameters. -/

/-- A memory record, opaque to the retrieval loop. -/
structure MemRec where
  id : Nat
deriving DecidableEq

/-- Outcome of one memories request. -/
inductive MemOutcome where
  | rateLimited
  | failed
  | page (data : List MemRec)
deriving DecidableEq

/-- Embedding of `get_memories` (accumulation expressed by returning
each page concatenated in front of the rest of the run). -/
def get_memories (limit : Nat) (fetchMem : Nat → Nat → MemOutcome) :
    Nat → Nat → List MemRec
  | 0, _ => []
  | Nat.succ fuel, offset =>
    match fetchMem limit offset with
    | .rateLimited => get_memories limit fetchMem fuel offset
    | .failed => []
    | .page data =>
      if data = [] then []
      else data ++ get_memories limit fetchMem fuel (offset + data.length)

/-- C9: memory retrieval stops only on a failed request or an empty
page; a rate-limited request retries the same offset; and a non-empty
page — even one shorter than the requested limit, which the loop never
compares against — contributes its records in order, in front of the
rest of the run continued at the offset advanced by the number of
records actually returned.  Iterating the last equation shows the
returned list is the concatenation of all fetched pages in fetch order
with nothing skipped or duplicated. -/
theorem c9_memories_pagination (limit : Nat) (f : Nat → Nat → MemOutcome)
    (fuel offset : Nat) (data : List MemRec) :
    (f limit offset = .failed → get_memories limit f (fuel + 1) offset = [])
    ∧ (f limit offset = .page [] → get_memories limit f (fuel + 1) offset = [])
    ∧ (f limit offset = .rateLimited →
        get_memories limit f (fuel + 1) offset = get_memories limit f fuel offset)
    ∧ (f limit offset = .page data → data ≠ [] →
        get_memories limit f (fuel + 1) offset
          = data ++ get_memories limit f fuel (offset + data.length)) := by
  refine ⟨?_, ?_, ?_, ?_⟩
  · intro h; simp [get_memories, h]
  · intro h; simp [get_memories, h]
  · intro h; simp [get_memories, h]
  · intro h hne; simp [get_memories, h, hne]

/-- Witness for C9: a page of two records against a requested limit of
100 does not end the loop and advances the offset by 2. -/
theorem c9_memories_pagination_witness :
    get_memories 100
        (fun _ o => if o = 0 then .page [⟨0⟩, ⟨1⟩] else .page []) 10 0
      = [⟨0⟩, ⟨1⟩] ++ get_memories 100
          (fun _ o => if o = 0 then .page [⟨0⟩, ⟨1⟩] else .page []) 9 2 :=
  (c9_memories_pagination 100
      (fun _ o => if o = 0 then .page [⟨0⟩, ⟨1⟩] else .page []) 9 0
      [⟨0⟩, ⟨1⟩]).2.2.2 rfl (by decide)

/-! ## Timestamp normalizer: `parse_timestamp` (omi_data.py lines 1066-1106)

The normalizer is modelled with explicit Python exception propagation:
`Except PyExc (Option Rat)` — `.ok (some ts)` is a parsed UTC instant,
`.ok none` the explicit unparseable result, `.error e` an exception
escaping to the caller.  The body's `except (ValueError, TypeError,
OSError)` clause catches exactly those three; `OverflowError` — raised
by `datetime.fromtimestamp` when a numeric epoch does not fit the
platform 64-bit `time_t`, per the documented CPython behavior — is not
in the tuple.  `datetime.fromisoformat` is an external collaborator and
enters as the `isoParse` parameter. -/

inductive PyExc where
  | valueError
  | typeError
  | osError
  | overflowError
deriving DecidableEq

instance {ε α : Type} [DecidableEq ε] [DecidableEq α] : DecidableEq (Except ε α) :=
  fun a b =>
    match a, b with
    | .ok x, .ok y =>
      if h : x = y then isTrue (by rw [h])
      else isFalse (fun hc => h (Except.ok.inj hc))
    | .error e, .error f =>
      if h : e = f then isTrue (by rw [h])
      else isFalse (fun hc => h (Except.error.inj hc))
    | .ok _, .error _ => isFalse (fun hc => Except.noConfusion hc)
    | .error _, .ok _ => isFalse (fun hc => Except.noConfusion hc)

/-- A Python `datetime` value: its UTC instant, and whether the object
is timezone-aware.  A naive value's fields are interpreted as UTC (the
source applies `replace(tzinfo=UTC)`), so both cases carry the denoted
instant directly. -/
structure PyDateTime where
  instant : Rat
  aware : Bool
deriving DecidableEq

/-- A Python value given to `parse_timestamp`. -/
inductive PyVal where
  | none
  | str (s : String)
  | int (n : Int)
  | float (q : Rat)
  | dt (d : PyDateTime)
  | other
deriving DecidableEq

/-- Model of `datetime.fromtimestamp(t, tz=UTC)`: an epoch outside the
64-bit `time_t` range raises OverflowError; an epoch whose year falls
outside `datetime`'s 1..9999 range fails inside the caught tuple
(`gmtime` OSError or the constructor's ValueError — modelled uniformly
as ValueError, since the source catches all of them); otherwise the
instant itself. -/
def fromtimestamp (t : Rat) : Except PyExc Rat :=
  if t < (-9223372036854775808 : Rat) ∨ (9223372036854775807 : Rat) < t then
    .error .overflowError
  else if t < (-62135596800 : Rat) ∨ (253402300800 : Rat) ≤ t then .error .valueError
  else .ok t

/-- The string branch of `parse_timestamp`: try `fromisoformat` on the
value with `Z` replaced by `+00:00`; on ValueError retry with `Z`
stripped and mark the result UTC-aware; any other exception
propagates.  The subsequent naive/aware normalization returns the
denoted instant either way. -/
def pyStringBranch (isoParse : String → Except PyExc PyDateTime) (s : String) :
    Except PyExc PyDateTime :=
  match isoParse (s.replace "Z" "+00:00") with
  | .ok d => .ok d
  | .error .valueError =>
    match isoParse (s.replace "Z" "") with
    | .ok d => .ok { d with aware := true }
    | .error e => .error e
  | .error e => .error e

/-- The `except (ValueError, TypeError, OSError)` clause wrapped around
the body of `parse_timestamp`: those three become `return None`, any
other exception escapes. -/
def catchCaught (r : Except PyExc (Option Rat)) : Except PyExc (Option Rat) :=
  match r with
  | .error .valueError => .ok Option.none
  | .error .typeError => .ok Option.none
  | .error .osError => .ok Option.none
  | other => other

/-- Embedding of `parse_timestamp`: `None` short-circuits before the
`try`; strings go through the `fromisoformat` logic, numerics through
`fromtimestamp`, datetimes are normalized to UTC, any other type falls
through the `try` body to the final `return None`. -/
def parse_timestamp (isoParse : String → Except PyExc PyDateTime) :
    PyVal → Except PyExc (Option Rat)
  | .none => .ok Option.none
  | .str s => catchCaught ((pyStringBranch isoParse s).map (fun d => some d.instant))
  | .int n => catchCaught ((fromtimestamp (n : Rat)).map some)
  | .float q => catchCaught ((fromtimestamp q).map some)
  | .dt d => catchCaught (.ok (some d.instant))
  | .other => catchCaught (.ok Option.none)

/-- C8 (code bug): the normalizer is not total — an extreme numeric
epoch such as `10 ** 20` makes `datetime.fromtimestamp` raise
OverflowError, which the `except (ValueError, TypeError, OSError)`
clause does not catch, so `parse_timestamp` raises to its caller
instead of returning the explicit unparseable result.  The remaining
conjuncts confirm the contract on the in-range cases: `None`, a
non-timestamp type, an in-range epoch, and an epoch past the year-9999
boundary (whose ValueError is caught) all return without raising. -/
theorem c8_parse_timestamp_overflow (isoParse : String → Except PyExc PyDateTime) :
    parse_timestamp isoParse (.int (10 ^ 20)) = .error .overflowError
    ∧ parse_timestamp isoParse PyVal.none = .ok Option.none
    ∧ parse_timestamp isoParse PyVal.other = .ok Option.none
    ∧ parse_timestamp isoParse (.int 1735689600) = .ok (some 1735689600)
    ∧ parse_timestamp isoParse (.float 253402300800) = .ok Option.none := by
  refine ⟨?_, rfl, rfl, ?_, ?_⟩
  · show catchCaught ((fromtimestamp ((10 ^ 20 : Int) : Rat)).map some)
      = .error .overflowError
    norm_num [fromtimestamp, catchCaught, Except.map]
  · show catchCaught ((fromtimestamp ((1735689600 : Int) : Rat)).map some)
      = .ok (some 1735689600)
    norm_num [fromtimestamp, catchCaught, Except.map]
  · show catchCaught ((fromtimestamp (253402300800 : Rat)).map some)
      = .ok Option.none
    norm_num [fromtimestamp, catchCaught, Except.map]

/-! ## Query window computation (omi_data.py `__main__`, lines 1008-1036)

The `__main__` block converts the caller's `YYYY-MM-DD` start and end
dates into UTC instants: `datetime(y, m, d, 0, 0, 0, tzinfo=user_tz)`
for the start, `datetime(y, m, d, 23, 59, 59, tzinfo=user_tz)` for the
end (or `datetime.now(user_tz)` when the end date is "now"), both
shifted to UTC.  The time zone enters as a fixed offset in seconds
(zone-database lookup is an external collaborator); the round trip
through `strftime("%Y-%m-%dT%H:%M:%SZ")` and the engine's
`fromisoformat` is the identity on whole-second UTC instants and is
elided.  Calendar arithmetic uses the standard proleptic-Gregorian
civil-date conversions, matching Python's `datetime` ordinal. -/

/-- Days since 1970-01-01 of a proleptic-Gregorian civil date. -/
def daysFromCivil (y m d : Int) : Int :=
  let y1 := if m <= 2 then y - 1 else y
  let era := (if 0 <= y1 then y1 else y1 - 399) / 400
  let yoe := y1 - era * 400
  let mp := (m + 9) % 12
  let doy := (153 * mp + 2) / 5 + d - 1
  let doe := yoe * 365 + yoe / 4 - yoe / 100 + doy
  era * 146097 + doe - 719468

/-- Civil date (year, month, day) of a count of days since 1970-01-01. -/
def civilFromDays (z0 : Int) : Int × Int × Int :=
  let z := z0 + 719468
  let era := (if 0 <= z then z else z - 146096) / 146097
  let doe := z - era * 146097
  let yoe := (doe - doe / 1460 + doe / 36524 - doe / 146096) / 365
  let y := yoe + era * 400
  let doy := doe - (365 * yoe + yoe / 4 - yoe / 100)
  let mp := (5 * doy + 2) / 153
  let d := doy - (153 * mp + 2) / 5 + 1
  let m := mp + (if mp < 10 then 3 else -9)
  (if m <= 2 then y + 1 else y, m, d)

/-- UTC epoch seconds of local wall-clock `y-m-d h:mi:s` in a zone at a
fixed offset of `tzOffset` seconds east of UTC: the meaning of
`datetime(y, m, d, h, mi, s, tzinfo=user_tz).astimezone(UTC)`. -/
def epochOfLocal (y m d h mi s tzOffset : Int) : Int :=
  daysFromCivil y m d * 86400 + h * 3600 + mi * 60 + s - tzOffset

/-- The end-date argument: a calendar date, or the string "now". -/
inductive EndDateSpec where
  | now
  | onDate (y m d : Int)

/-- Embedding of the `__main__` window computation: start of day on the
start date and 23:59:59 on the end date (or the current instant for
"now"), both as UTC epoch seconds. -/
def computeQueryWindow (sy sm sd : Int) (es : EndDateSpec)
    (nowEpochUtc tzOffset : Int) : Int × Int :=
  (epochOfLocal sy sm sd 0 0 0 tzOffset,
   match es with
   | .now => nowEpochUtc
   | .onDate y m d => epochOfLocal y m d 23 59 59 tzOffset)

/-- C10: for start and end dates given as calendar dates, the query
window runs from 00:00:00 local time on the start date to 23:59:59
local time on the end date, both converted from the configured zone to
UTC; consequently a record whose instant lies strictly between that
end bound and the following local midnight (one second later) is
dropped by the Range Filter for this window; and an end date of "now"
uses the current instant as the end bound instead. -/
theorem c10_query_window (sy sm sd ey em ed tzOffset nowE : Int)
    (c : Conv) (q : Rat)
    (hts : c.ts = some q)
    (hlo : (((computeQueryWindow sy sm sd (.onDate ey em ed) nowE tzOffset).2 : Int) : Rat) < q)
    (_hhi : q < (((computeQueryWindow sy sm sd (.onDate ey em ed) nowE tzOffset).2 : Int) : Rat) + 1) :
    (computeQueryWindow sy sm sd (.onDate ey em ed) nowE tzOffset).1
        = epochOfLocal sy sm sd 0 0 0 tzOffset
    ∧ (computeQueryWindow sy sm sd (.onDate ey em ed) nowE tzOffset).2
        = epochOfLocal ey em ed 23 59 59 tzOffset
    ∧ (filter_conversations_by_date [c]
        (some (((computeQueryWindow sy sm sd (.onDate ey em ed) nowE tzOffset).1 : Int) : Rat))
        (some (((computeQueryWindow sy sm sd (.onDate ey em ed) nowE tzOffset).2 : Int) : Rat))).1
        = []
    ∧ (computeQueryWindow sy sm sd .now nowE tzOffset).2 = nowE := by
  refine ⟨rfl, rfl, ?_, rfl⟩
  rw [filter_eq]
  have hk : keepB
      (some (((computeQueryWindow sy sm sd (.onDate ey em ed) nowE tzOffset).1 : Int) : Rat))
      (some (((computeQueryWindow sy sm sd (.onDate ey em ed) nowE tzOffset).2 : Int) : Rat))
      c = false := by
    simp [keepB, hts, not_le.mpr hlo]
  simp [hk]

/-- Witness for C10: zone UTC-8 (offset -28800 s), window 2025-01-01 to
2025-01-31, and a record half a second past 23:59:59 local on the end
date, which the filter drops. -/
theorem c10_query_window_witness :
    (computeQueryWindow 2025 1 1 (.onDate 2025 1 31) 0 (-28800)).1
        = epochOfLocal 2025 1 1 0 0 0 (-28800)
    ∧ (computeQueryWindow 2025 1 1 (.onDate 2025 1 31) 0 (-28800)).2
        = epochOfLocal 2025 1 31 23 59 59 (-28800)
    ∧ (filter_conversations_by_date
        [⟨some ((((computeQueryWindow 2025 1 1 (.onDate 2025 1 31) 0 (-28800)).2 : Int) : Rat)
            + 1 / 2), 0⟩]
        (some (((computeQueryWindow 2025 1 1 (.onDate 2025 1 31) 0 (-28800)).1 : Int) : Rat))
        (some (((computeQueryWindow 2025 1 1 (.onDate 2025 1 31) 0 (-28800)).2 : Int) : Rat))).1
        = []
    ∧ (computeQueryWindow 2025 1 1 .now 0 (-28800)).2 = 0 :=
  c10_query_window 2025 1 1 2025 1 31 (-28800) 0
    ⟨some ((((computeQueryWindow 2025 1 1 (.onDate 2025 1 31) 0 (-28800)).2 : Int) : Rat)
        + 1 / 2), 0⟩
    ((((computeQueryWindow 2025 1 1 (.onDate 2025 1 31) 0 (-28800)).2 : Int) : Rat) + 1 / 2)
    rfl (by norm_num) (by norm_num)

/-! ## Incremental grouping and sink: `process_batch` (omi_data.py lines 1108-1242)

`process_batch` groups each delivered batch into per-day buckets
(`conversations_by_day`, a `defaultdict(list)` with insertion-ordered
keys) keyed by the record instant rendered as a `YYYY-MM-DD` string in
the target zone (sentinel `"unknown"` when no candidate field parses),
then writes one whole-bucket snapshot per selected day key.  The file
system is the sink collaborator: a write is modelled as the pair of the
day key and the full contents written for it (the combined,
non-split-transcript layout, the source default).  The timestamp scan
reuses `parse_timestamp`, whose exceptions propagate out of
`process_batch` uncaught. -/

/-- A record as seen by the sink: raw fields plus an opaque payload. -/
structure SRec where
  fields : List (String × PyVal)
  id : Nat
deriving DecidableEq

/-- The priority-ordered candidate timestamp field names of the scan
loop. -/
def timestampFields : List String :=
  ["created_at", "timestamp", "date", "time", "started_at", "updated_at",
   "created", "start_time"]

/-- Python `field in conversation` and `conversation[field]`. -/
def fieldGet (fields : List (String × PyVal)) (k : String) : Option PyVal :=
  match fields with
  | [] => Option.none
  | (k1, v) :: rest => if k1 = k then some v else fieldGet rest k

/-- The per-record scan: parse the first present candidate field; a
parse returning `None` moves on to the next field, a parse success
breaks out, an exception propagates. -/
def scanTimestamp (isoParse : String → Except PyExc PyDateTime)
    (conv : SRec) : List String → Except PyExc (Option Rat)
  | [] => .ok Option.none
  | f :: rest =>
    match fieldGet conv.fields f with
    | Option.none => scanTimestamp isoParse conv rest
    | some v =>
      match parse_timestamp isoParse v with
      | .error e => .error e
      | .ok Option.none => scanTimestamp isoParse conv rest
      | .ok (some ts) => .ok (some ts)

def pad2 (n : Int) : String := if n < 10 then "0" ++ toString n else toString n

def pad4 (n : Int) : String :=
  if n < 10 then "000" ++ toString n
  else if n < 100 then "00" ++ toString n
  else if n < 1000 then "0" ++ toString n
  else toString n

/-- strftime("%Y-%m-%d") of the record instant shifted into the target
fixed-offset zone (`timestamp_utc.astimezone(user_tz)`). -/
def dayKeyOfInstant (tzOffset : Int) (ts : Rat) : String :=
  let ymd := civilFromDays (Int.floor ((ts + (tzOffset : Rat)) / 86400))
  pad4 ymd.1 ++ "-" ++ pad2 ymd.2.1 ++ "-" ++ pad2 ymd.2.2

/-- The sink's state across batches: the day buckets in key insertion
order, and the set of day keys already written this run. -/
structure SinkState where
  conversationsByDay : List (String × List SRec)
  filesWritten : List String
deriving DecidableEq

/-- Lookup of a day bucket (`defaultdict`: absent key reads as empty). -/
def bucketGet (buckets : List (String × List SRec)) (k : String) : List SRec :=
  match buckets with
  | [] => []
  | (k1, l) :: rest => if k1 = k then l else bucketGet rest k

/-- Append one record to a day bucket, creating the key at the end in
dict insertion order. -/
def bucketAppend (buckets : List (String × List SRec)) (k : String) (r : SRec) :
    List (String × List SRec) :=
  match buckets with
  | [] => [(k, [r])]
  | (k1, l) :: rest =>
    if k1 = k then (k1, l ++ [r]) :: rest else (k1, l) :: bucketAppend rest k r

/-- The grouping loop of `process_batch`: bucket each record by day key
and record the day keys not yet written (`new_days_found`, appended per
record as in the source). -/
def groupLoop (isoParse : String → Except PyExc PyDateTime) (tzOffset : Int) :
    List SRec → SinkState → List String → Except PyExc (SinkState × List String)
  | [], st, newDays => .ok (st, newDays)
  | conv :: rest, st, newDays =>
    match scanTimestamp isoParse conv timestampFields with
    | .error e => .error e
    | .ok r =>
      let dayKey :=
        match r with
        | some ts => dayKeyOfInstant tzOffset ts
        | Option.none => "unknown"
      let st1 := { st with
        conversationsByDay := bucketAppend st.conversationsByDay dayKey conv }
      let newDays1 :=
        if dayKey ∈ st.filesWritten then newDays else newDays ++ [dayKey]
      groupLoop isoParse tzOffset rest st1 newDays1

def insertUnique (l : List String) (x : String) : List String :=
  if x ∈ l then l else l ++ [x]

/-- The `days_to_save` set: the new days found this batch, plus every
bucket key that is not yet written or is among the new days. -/
def daysToSave (st : SinkState) (newDays : List String) : List String :=
  st.conversationsByDay.foldl
    (fun acc kv =>
      if kv.1 ∉ st.filesWritten ∨ kv.1 ∈ newDays then insertUnique acc kv.1 else acc)
    (newDays.foldl insertUnique [])

def insertSorted (x : String) : List String → List String
  | [] => [x]
  | y :: ys => if x ≤ y then x :: y :: ys else y :: insertSorted x ys

/-- `sorted(days_to_save)` (lexicographic, as Python sorts these
strings). -/
def sortStrings (l : List String) : List String := l.foldr insertSorted []

/-- The save loop: write each selected day's complete current bucket (a
whole-document snapshot), then mark the day written. -/
def saveLoop (st : SinkState) : List String → SinkState × List (String × List SRec)
  | [] => (st, [])
  | k :: rest =>
    let contents := bucketGet st.conversationsByDay k
    let st1 :=
      if k ∈ st.filesWritten then st
      else { st with filesWritten := st.filesWritten ++ [k] }
    let r := saveLoop st1 rest
    (r.1, (k, contents) :: r.2)

/-- Embedding of `process_batch`: group the batch, select
`days_to_save`, and save each selected day in sorted order.  Returns
the updated sink state and the writes performed, or the uncaught
exception. -/
def process_batch (isoParse : String → Except PyExc PyDateTime) (tzOffset : Int)
    (batch : List SRec) (st : SinkState) :
    Except PyExc (SinkState × List (String × List SRec)) :=
  match groupLoop isoParse tzOffset batch st [] with
  | .error e => .error e
  | .ok (st1, newDays) => .ok (saveLoop st1 (sortStrings (daysToSave st1 newDays)))

/-- A record with epoch timestamp 0 (1970-01-01 UTC). -/
def sinkRec1 : SRec := ⟨[("created_at", .int 0)], 1⟩

/-- A record one hour later, on the same day. -/
def sinkRec2 : SRec := ⟨[("created_at", .int 3600)], 2⟩

/-- C1 (code bug): a day key whose file was written in an earlier batch
and that merely receives additional records in a later batch is NOT
rewritten.  Batch 1 delivers `sinkRec1` for day 1970-01-01: the file is
written with the bucket `[sinkRec1]` and the day is marked written.
Batch 2 delivers `sinkRec2` for the same day: the bucket grows to
`[sinkRec1, sinkRec2]`, but `days_to_save` comes out empty — the day is
in `files_written` and not among this batch's `new_days_found`, so the
save condition `day_key not in files_written or day_key in
new_days_found` rejects it — and no file is written at all, leaving the
on-disk snapshot stale, contrary to the claim (and to the source's own
comment "Also save files for days that have new conversations").  -/
theorem c1_incremental_flush_bug (isoParse : String → Except PyExc PyDateTime) :
    process_batch isoParse 0 [sinkRec1] ⟨[], []⟩
      = .ok (⟨[("1970-01-01", [sinkRec1])], ["1970-01-01"]⟩,
             [("1970-01-01", [sinkRec1])])
    ∧ process_batch isoParse 0 [sinkRec2]
        ⟨[("1970-01-01", [sinkRec1])], ["1970-01-01"]⟩
      = .ok (⟨[("1970-01-01", [sinkRec1, sinkRec2])], ["1970-01-01"]⟩, []) := by
  exact ⟨by with_unfolding_all rfl, by with_unfolding_all rfl⟩

end OmiExport
